import Mathlib

/-!
Verification of linux_time_handle

A shallow embedding of `time_handle.c` / `time_handle.h`.

Layout of the file:

* the C data types (`date_time_t`, `struct tm`, `struct timespec`) and the
  integer conversions the code relies on;
* a model of the C library services the code calls (`localtime`, `gmtime`,
  `mktime`, `tzset`, `setenv`, `snprintf`, `sscanf`, the clocks);
* the twelve functions of `time_handle.c`, translated statement by statement;
* lemmas about the library model, then the theorems about the functions.

Strings are C strings: a `List Char` holds the characters before the
terminating NUL.
-/

namespace TimeHandle

/-! ## C integer conversions -/

/-- Conversion of an integer value to `uint8_t`. -/
def to_uint8 (x : Int) : Nat := (x % 256).toNat

/-- Conversion of an integer value to `uint16_t`. -/
def to_uint16 (x : Int) : Nat := (x % 65536).toNat

/-- Conversion of an integer value to `uint64_t`. -/
def to_uint64 (x : Int) : Nat := (x % 18446744073709551616).toNat

/-- Conversion of an integer value to `int` (32 bits, two's complement). -/
def to_int (x : Int) : Int := (x + 2147483648) % 4294967296 - 2147483648

/-- The `time_t` (64 bits, signed) read through a pointer to a `uint64_t`
    object, as in `(const time_t *)&unix_time`. -/
def to_time_t (u : Nat) : Int :=
  if u % 18446744073709551616 < 9223372036854775808 then ((u % 18446744073709551616 : Nat) : Int)
  else ((u % 18446744073709551616 : Nat) : Int) - 18446744073709551616

/-! ## Data types -/

/-- The record `date_time_t` of `time_handle.h`: `tm_year` is a `uint16_t`,
    the other fields are `uint8_t`. -/
structure date_time_t where
  tm_year : Nat
  tm_mon : Nat
  tm_day : Nat
  tm_hour : Nat
  tm_min : Nat
  tm_sec : Nat
  deriving DecidableEq, Repr

/-- The fields of the C `struct tm` that `mktime` reads (`tm_wday` and
    `tm_yday` are ignored by `mktime` and never read by the code). -/
structure Tm where
  tm_sec : Int
  tm_min : Int
  tm_hour : Int
  tm_mday : Int
  tm_mon : Int
  tm_year : Int
  tm_isdst : Int
  deriving DecidableEq, Repr

/-- The C `struct timespec`. -/
structure Timespec where
  tv_sec : Int
  tv_nsec : Int
  deriving DecidableEq, Repr

/-- A pointer argument, as far as the code looks at it: null or not. -/
inductive Ptr where
  | null
  | valid
  deriving DecidableEq, Repr

/-! ## C library model: the calendar

The proleptic Gregorian calendar on POSIX time (every day has 86400
seconds). -/

/-- Days from 1970-01-01 to the civil date `y`-`m`-`d`. -/
def days_from_civil (y m d : Int) : Int :=
  let y1 := if m ≤ 2 then y - 1 else y
  let era := y1 / 400
  let yoe := y1 - era * 400
  let mp := if m > 2 then m - 3 else m + 9
  let doy := (153 * mp + 2) / 5 + d - 1
  let doe := yoe * 365 + yoe / 4 - yoe / 100 + doy
  era * 146097 + doe - 719468

/-- Civil date (year, month 1..12, day 1..31) of the day `z0` days after
    1970-01-01. -/
def civil_from_days (z0 : Int) : Int × Int × Int :=
  let z := z0 + 719468
  let era := z / 146097
  let doe := z - era * 146097
  let yoe := (doe - doe / 1460 + doe / 36524 - doe / 146096) / 365
  let y := yoe + era * 400
  let doy := doe - (365 * yoe + yoe / 4 - yoe / 100)
  let mp := (5 * doy + 2) / 153
  let d := doy - (153 * mp + 2) / 5 + 1
  let m := if mp < 10 then mp + 3 else mp - 9
  (if m ≤ 2 then y + 1 else y, m, d)

/-- Broken-down time of `x` seconds of wall-clock time counted from
    1970-01-01 00:00:00, with the given `tm_isdst`. -/
def break_down (x : Int) (isdst : Int) : Tm :=
  let c := civil_from_days (x / 86400)
  let r := x % 86400
  { tm_sec := r % 60
    tm_min := r / 60 % 60
    tm_hour := r / 3600
    tm_mday := c.2.2
    tm_mon := c.2.1 - 1
    tm_year := c.1 - 1900
    tm_isdst := isdst }

/-- Seconds of wall-clock time counted from 1970-01-01 00:00:00 that the
    fields of `tm` denote; out-of-range fields are carried, as `mktime`
    does. -/
def wall_seconds (tm : Tm) : Int :=
  let y := tm.tm_year + 1900 + tm.tm_mon / 12
  let m := tm.tm_mon % 12 + 1
  (days_from_civil y m 1 + (tm.tm_mday - 1)) * 86400
    + tm.tm_hour * 3600 + tm.tm_min * 60 + tm.tm_sec

/-- A time zone as the C library knows it after `tzset`: the offsets from
    UTC (seconds east) in standard and in daylight-saving time, and the
    half-open intervals of epoch seconds in which daylight-saving time is in
    force. -/
structure Zone where
  stdoff : Int
  dstoff : Int
  dst : List (Int × Int)
  deriving DecidableEq, Repr

/-- A zone whose local time is always UTC plus `s` seconds. -/
def fixed_zone (s : Int) : Zone := { stdoff := s, dstoff := s, dst := [] }

/-- Whether daylight-saving time is in force at the instant `t`. -/
def in_dst (z : Zone) (t : Int) : Bool :=
  z.dst.any (fun p => decide (p.1 ≤ t) && decide (t < p.2))

/-- Offset from UTC at the instant `t`. -/
def utc_offset (z : Zone) (t : Int) : Int :=
  if in_dst z t then z.dstoff else z.stdoff

/-- A `struct tm` exists only when the year fits its `int` field; the
    library returns a null pointer otherwise. -/
def tm_result (tm : Tm) : Option Tm :=
  if -2147483648 ≤ tm.tm_year ∧ tm.tm_year ≤ 2147483647 then some tm else none

/-- C library `localtime`. -/
def localtime (z : Zone) (t : Int) : Option Tm :=
  tm_result (break_down (t + utc_offset z t) (if in_dst z t then 1 else 0))

/-- C library `gmtime`. -/
def gmtime (t : Int) : Option Tm :=
  tm_result (break_down t 0)

/-- C library `mktime` with a 64-bit `time_t`.  A zero `tm_isdst` makes the
    fields standard time, a positive one daylight-saving time (when the zone
    has any), a negative one lets the library choose: daylight-saving time
    when the fields read that way denote an instant at which it is in force,
    standard time otherwise. -/
def mktime (z : Zone) (tm : Tm) : Int :=
  let w := wall_seconds tm
  if tm.tm_isdst = 0 then w - z.stdoff
  else if 0 < tm.tm_isdst then (if z.dst.isEmpty then w - z.stdoff else w - z.dstoff)
  else if in_dst z (w - z.dstoff) then w - z.dstoff
  else w - z.stdoff

/-! ## C library model: formatted output and input -/

/-- Character of the decimal digit `d % 10`. -/
def digit_char (d : Nat) : Char := Char.ofNat (48 + d % 10)

/-- Decimal digits of `n`, least significant first; the first argument
    bounds the number of digits produced. -/
def dec_rev : Nat → Nat → List Char
  | 0, _ => []
  | f + 1, n => digit_char n :: (if n < 10 then [] else dec_rev f (n / 10))

/-- Decimal digits of `n`, most significant first, no leading zero. -/
def dec (n : Nat) : List Char := (dec_rev (n + 1) n).reverse

/-- The `printf` conversions `%<width>d` (`zero = false`) and `%0<width>d`
    (`zero = true`), with or without the `l` length modifier: sign, digits,
    and padding up to the minimum field width, with blanks before the sign
    or with zeros after it. -/
def fmt_d (zero : Bool) (width : Nat) (v : Int) : List Char :=
  let body := dec v.natAbs
  let sign : List Char := if v < 0 then ['-'] else []
  let pad := width - (sign.length + body.length)
  if zero then sign ++ List.replicate pad '0' ++ body
  else List.replicate pad ' ' ++ sign ++ body

/-- What `snprintf(buf, size, ...)` leaves in `buf` when the full output
    is `full`: its first `size - 1` characters. -/
def snprintf (size : Nat) (full : List Char) : List Char := full.take (size - 1)

/-- White space in the sense of `isspace`. -/
def is_space (c : Char) : Bool := c.toNat = 32 || (9 ≤ c.toNat && c.toNat ≤ 13)

/-- Decimal digit in the sense of `isdigit`. -/
def is_digit (c : Char) : Bool := 48 ≤ c.toNat && c.toNat ≤ 57

/-- Letter in the sense of `isalpha` (C locale). -/
def is_alpha (c : Char) : Bool :=
  (65 ≤ c.toNat && c.toNat ≤ 90) || (97 ≤ c.toNat && c.toNat ≤ 122)

/-- Input left after leading white space. -/
def skip_ws : List Char → List Char
  | [] => []
  | c :: cs => if is_space c then skip_ws cs else c :: cs

/-- The `scanf` conversion `%s`: skips white space, then takes the longest
    run of characters that are not white space.  Fails at the end of the
    input.  Yields the run and the input left. -/
def scan_s (s : List Char) : Option (List Char × List Char) :=
  let s1 := skip_ws s
  let tok := s1.takeWhile (fun c => !is_space c)
  if tok.isEmpty then none else some (tok, s1.dropWhile (fun c => !is_space c))

/-- Reads at most `w` decimal digits, accumulating their value in `acc`. -/
def scan_digits : Nat → Nat → List Char → Nat × List Char
  | 0, acc, s => (acc, s)
  | _ + 1, acc, [] => (acc, [])
  | w + 1, acc, c :: cs =>
    if is_digit c then scan_digits w (acc * 10 + (c.toNat - 48)) cs else (acc, c :: cs)

/-- Reads a number of at most `w` characters that starts with a digit. -/
def scan_unsigned (w : Nat) (s : List Char) : Option (Nat × List Char) :=
  match w, s with
  | _ + 1, c :: _ => if is_digit c then some (scan_digits w 0 s) else none
  | _, _ => none

/-- The `scanf` conversion `%<width>d` (a leading `0` in the width, as in
    `%02d`, is part of the number that gives the width): skips white space,
    then reads an optional sign and decimal digits, at most `width`
    characters in all.  Fails when no digit is read. -/
def scan_d (width : Nat) (s : List Char) : Option (Int × List Char) :=
  match skip_ws s with
  | [] => none
  | c :: cs =>
    if c = '-' then
      (scan_unsigned (width - 1) cs).map (fun r => (-(r.1 : Int), r.2))
    else if c = '+' then
      (scan_unsigned (width - 1) cs).map (fun r => ((r.1 : Int), r.2))
    else
      (scan_unsigned width (c :: cs)).map (fun r => ((r.1 : Int), r.2))

/-- A literal character of a `scanf` format: the input must start with it. -/
def scan_lit (c : Char) (s : List Char) : Option (List Char) :=
  match s with
  | [] => none
  | x :: xs => if x = c then some xs else none

/-- `strncmp(a, b, n) == 0` on NUL-terminated strings. -/
def strncmp_eq (a b : List Char) (n : Nat) : Bool := a.take n == b.take n

/-! ## C library model: time zone setting and environment -/

/-- One or two decimal digits at the head of the input. -/
def tz_number (s : List Char) : Option (Nat × List Char) := scan_unsigned 2 s

/-- Optional `:nn` group of a POSIX offset; absent at the end of the input. -/
def tz_group (s : List Char) : Option (Nat × List Char) :=
  match s with
  | [] => some (0, [])
  | c :: cs => if c = ':' then tz_number cs else none

/-- The zone a POSIX `TZ` value of the form `std offset` denotes, the offset
    being `[+|-]hh[:mm[:ss]]`: local time is UTC minus the offset.  `none`
    for every other form (a daylight-saving part, a zone file name). -/
def posix_tz (s : List Char) : Option Zone :=
  let name := s.takeWhile is_alpha
  let r := s.dropWhile is_alpha
  if name.length < 3 then none
  else
    let neg := r.head? == some '-'
    let r1 := if r.head? == some '-' || r.head? == some '+' then r.tail else r
    match tz_number r1 with
    | none => none
    | some (hh, r2) =>
      match tz_group r2 with
      | none => none
      | some (mm, r3) =>
        match tz_group r3 with
        | none => none
        | some (ss, r4) =>
          if r4.isEmpty then
            let off : Int := (hh : Int) * 3600 + (mm : Int) * 60 + (ss : Int)
            some (fixed_zone (if neg then off else -off))
          else none

/-- The process environment. -/
abbrev Env := List (List Char × List Char)

/-- Value of a variable of the environment. -/
def Env.get (e : Env) (name : List Char) : Option (List Char) :=
  (e.find? (fun p => p.1 == name)).map (fun p => p.2)

/-- The environment with `name` set to `value`. -/
def Env.set (e : Env) (name value : List Char) : Env :=
  (name, value) :: e.filter (fun p => !(p.1 == name))

/-- What the code sees of the platform: the process environment, the zone
    the library has cached, and what the operating system answers to each
    call. -/
structure Platform where
  /-- the process environment -/
  env : Env
  /-- the zone cached by the last `tzset` -/
  zone : Zone
  /-- the zone the library derives from a `TZ` value that is not of the POSIX
      `std offset` form (zone files, default rules) -/
  tzdb : List Char → Zone
  /-- whether `setenv` fails (out of memory) -/
  setenv_fails : Bool
  /-- value of `time()` -/
  now : Int
  /-- `clock_gettime(CLOCK_REALTIME, ..)`: `none` when it returns -1 -/
  realtime : Option Timespec
  /-- `clock_gettime(CLOCK_MONOTONIC, ..)`: `none` when it returns -1 -/
  monotonic : Option Timespec
  /-- return value of the call that sets the system clock
      (`stime` or `clock_settime`) -/
  settime_ret : Int

/-- The clocks of `clock_gettime`. -/
inductive Clock where
  | CLOCK_REALTIME
  | CLOCK_MONOTONIC
  deriving DecidableEq, Repr

/-- `clock_gettime`. -/
def clock_gettime (p : Platform) : Clock → Option Timespec
  | Clock.CLOCK_REALTIME => p.realtime
  | Clock.CLOCK_MONOTONIC => p.monotonic

/-- `setenv(name, value, 1)`: return value and environment afterwards. -/
def setenv (p : Platform) (name value : List Char) : Int × Env :=
  if name.isEmpty || name.contains '=' || p.setenv_fails then (-1, p.env)
  else (0, p.env.set name value)

/-- The zone `tzset` caches for the environment `e`. -/
def tzset (p : Platform) (e : Env) : Zone :=
  match e.get "TZ".toList with
  | none => p.tzdb []
  | some v =>
    match posix_tz v with
    | some z => z
    | none => p.tzdb v

/-- Calls that reach outside the process, as recorded in a trace. -/
inductive Call where
  | clock_gettime (c : Clock)
  | setenv (name value : List Char)
  | tzset
  | stime (t : Int)
  | clock_settime (t : Int)
  | system (cmd : List Char)
  deriving DecidableEq, Repr

/-- Result of a function with return type `bool` and an output argument:
    the return value, what was stored through the output pointer (`none`
    when nothing was stored), and the calls made, in order. -/
structure Outcome (α : Type) where
  ret : Bool
  out : Option α
  calls : List Call
  deriving DecidableEq, Repr

/-! ## The functions of `time_handle.c` -/

/-- The table `month` of `get_compile_time`. -/
def month : List (List Char) :=
  ["Jan".toList, "Feb".toList, "Mar".toList, "Apr".toList, "May".toList, "Jun".toList,
   "Jul".toList, "Aug".toList, "Sep".toList, "Oct".toList, "Nov".toList, "Dec".toList]

/-- The loop of `get_compile_time` over the entries of the table that
    remain from index `i` on: `mon = i + 1` at the first entry whose three
    characters equal those of `str_month`, and `mon` keeps its initial value
    0 when the table is exhausted. -/
def month_loop (str_month : List Char) : Nat → List (List Char) → Int
  | _, [] => 0
  | i, m :: rest =>
    if strncmp_eq str_month m 3 then (i : Int) + 1 else month_loop str_month (i + 1) rest

/-- `sscanf(compile_date, "%s %02d %04d", str_month, &day, &year)`: the
    values of `str_month`, `day` and `year` afterwards (a variable whose
    conversion is not reached keeps its initial value, empty or 0). -/
def sscanf_date (s : List Char) : List Char × Int × Int :=
  match scan_s s with
  | none => ([], 0, 0)
  | some (tok, r1) =>
    match scan_d 2 (skip_ws r1) with
    | none => (tok, 0, 0)
    | some (day, r2) =>
      match scan_d 4 (skip_ws r2) with
      | none => (tok, day, 0)
      | some (year, _) => (tok, day, year)

/-- `sscanf(compile_time, "%02d:%02d:%02d", &hour, &min, &sec)`: the values
    of `hour`, `min` and `sec` afterwards. -/
def sscanf_time (s : List Char) : Int × Int × Int :=
  match scan_d 2 s with
  | none => (0, 0, 0)
  | some (hour, r1) =>
    match scan_lit ':' r1 with
    | none => (hour, 0, 0)
    | some r2 =>
      match scan_d 2 r2 with
      | none => (hour, 0, 0)
      | some (min, r3) =>
        match scan_lit ':' r3 with
        | none => (hour, min, 0)
        | some r4 =>
          match scan_d 2 r4 with
          | none => (hour, min, 0)
          | some (sec, _) => (hour, min, sec)

/-- `get_compile_time`, as a function of the strings the preprocessor puts
    for `__DATE__` and `__TIME__`: the string written to `get_time`.  `none`
    when the first word of the date has more than three characters, which
    overruns `str_month[4]`. -/
def get_compile_time (date time : List Char) : Option (List Char) :=
  let compile_date := snprintf 20 date
  let compile_time := snprintf 20 time
  let d := sscanf_date compile_date
  let t := sscanf_time compile_time
  let str_month := d.1
  let day := d.2.1
  let year := d.2.2
  let hour := t.1
  let min := t.2.1
  let sec := t.2.2
  if 3 < str_month.length then none
  else
    let mon := month_loop str_month 0 month
    some (snprintf 20
      (fmt_d true 4 year ++ "-".toList ++ fmt_d true 2 mon ++ "-".toList ++ fmt_d true 2 day
        ++ " ".toList ++ fmt_d true 2 hour ++ ":".toList ++ fmt_d true 2 min ++ ":".toList
        ++ fmt_d true 2 sec))

/-- `get_local_time_zone`.  `none` when `localtime` or `gmtime` returns a
    null pointer, which the code hands to `mktime`. -/
def get_local_time_zone (p : Platform) : Option Int :=
  let t1 := p.now
  let t2 := t1
  match localtime p.zone t1 with
  | none => none
  | some tm_local =>
    let t1 := mktime p.zone tm_local
    match gmtime t2 with
    | none => none
    | some tm_utc =>
      let t2 := mktime p.zone tm_utc
      some (to_int (Int.tdiv (t1 - t2) 3600))

/-- `set_local_time_zone`: return value, platform afterwards, calls made.
    A null `time_zone` is `none`. -/
def set_local_time_zone (p : Platform) (time_zone : Option (List Char)) :
    Bool × Platform × List Call :=
  match time_zone with
  | none => (false, p, [])
  | some tz =>
    let r := setenv p "TZ".toList tz
    if 0 ≠ r.1 then (false, { p with env := r.2 }, [Call.setenv "TZ".toList tz])
    else
      (true, { p with env := r.2, zone := tzset p r.2 },
        [Call.setenv "TZ".toList tz, Call.tzset])

/-- `get_time_str`. -/
def get_time_str (p : Platform) (time_buf : Ptr) (gap_flag : Nat) : Outcome (List Char) :=
  if time_buf = Ptr.null then ⟨false, none, []⟩
  else
    match clock_gettime p Clock.CLOCK_REALTIME with
    | none => ⟨false, none, [Call.clock_gettime Clock.CLOCK_REALTIME]⟩
    | some time_spec =>
      match localtime p.zone time_spec.tv_sec with
      | none => ⟨false, none, [Call.clock_gettime Clock.CLOCK_REALTIME]⟩
      | some tm_local =>
        if 0 = gap_flag then
          ⟨true,
           some (snprintf 60
            (fmt_d false 4 (to_int (1900 + tm_local.tm_year))
              ++ fmt_d true 2 (to_int (1 + tm_local.tm_mon))
              ++ fmt_d true 2 tm_local.tm_mday ++ fmt_d true 2 tm_local.tm_hour
              ++ fmt_d true 2 tm_local.tm_min ++ fmt_d true 2 tm_local.tm_sec
              ++ fmt_d true 6 (Int.tdiv time_spec.tv_nsec 1000))),
           [Call.clock_gettime Clock.CLOCK_REALTIME]⟩
        else if 1 = gap_flag then
          ⟨true,
           some (snprintf 66
            (fmt_d false 4 (to_int (1900 + tm_local.tm_year)) ++ "-".toList
              ++ fmt_d true 2 (to_int (1 + tm_local.tm_mon)) ++ "-".toList
              ++ fmt_d true 2 tm_local.tm_mday ++ " ".toList
              ++ fmt_d true 2 tm_local.tm_hour ++ ":".toList
              ++ fmt_d true 2 tm_local.tm_min ++ ":".toList
              ++ fmt_d true 2 tm_local.tm_sec ++ ".".toList
              ++ fmt_d true 6 (Int.tdiv time_spec.tv_nsec 1000))),
           [Call.clock_gettime Clock.CLOCK_REALTIME]⟩
        else if 2 = gap_flag then
          ⟨true,
           some (snprintf 66
            (fmt_d false 4 (to_int (1900 + tm_local.tm_year)) ++ "-".toList
              ++ fmt_d true 2 (to_int (1 + tm_local.tm_mon)) ++ "-".toList
              ++ fmt_d true 2 tm_local.tm_mday ++ "_".toList
              ++ fmt_d true 2 tm_local.tm_hour ++ "-".toList
              ++ fmt_d true 2 tm_local.tm_min ++ "-".toList
              ++ fmt_d true 2 tm_local.tm_sec ++ "-".toList
              ++ fmt_d true 6 (Int.tdiv time_spec.tv_nsec 1000))),
           [Call.clock_gettime Clock.CLOCK_REALTIME]⟩
        else ⟨false, none, [Call.clock_gettime Clock.CLOCK_REALTIME]⟩

/-- The six assignments that copy a `struct tm` into a `date_time_t`
    (`get_local_time` and `unix_time_to_local_time`). -/
def date_time_of_tm (tm : Tm) : date_time_t :=
  { tm_year := to_uint16 (tm.tm_year + 1900)
    tm_mon := to_uint8 (tm.tm_mon + 1)
    tm_day := to_uint8 tm.tm_mday
    tm_hour := to_uint8 tm.tm_hour
    tm_min := to_uint8 tm.tm_min
    tm_sec := to_uint8 tm.tm_sec }

/-- `get_local_time`. -/
def get_local_time (p : Platform) (local_time : Ptr) : Outcome date_time_t :=
  if local_time = Ptr.null then ⟨false, none, []⟩
  else
    match clock_gettime p Clock.CLOCK_REALTIME with
    | none => ⟨false, none, [Call.clock_gettime Clock.CLOCK_REALTIME]⟩
    | some time_spec =>
      match localtime p.zone time_spec.tv_sec with
      | none => ⟨false, none, [Call.clock_gettime Clock.CLOCK_REALTIME]⟩
      | some tm_local =>
        ⟨true, some (date_time_of_tm tm_local), [Call.clock_gettime Clock.CLOCK_REALTIME]⟩

/-- `set_local_time`, for a C library whose `__GLIBC_MINOR__` is
    `glibc_minor`: return value and calls made. -/
def set_local_time (glibc_minor : Nat) (p : Platform) (local_time : date_time_t) :
    Bool × List Call :=
  let ret : Int := -1
  let new_time : Tm :=
    { tm_sec := (local_time.tm_sec : Int)
      tm_min := (local_time.tm_min : Int)
      tm_hour := (local_time.tm_hour : Int)
      tm_mday := (local_time.tm_day : Int)
      tm_mon := (local_time.tm_mon : Int) - 1
      tm_year := (local_time.tm_year : Int) - 1900
      tm_isdst := -1 }
  let t := mktime p.zone new_time
  if glibc_minor = 31 then
    -- clock_settime(CLOCK_REALTIME, &res); its return value is dropped
    (if 0 ≠ ret then false else true, [Call.clock_settime t])
  else
    let ret := p.settime_ret
    (if 0 ≠ ret then false else true, [Call.stime t])

/-- `tv_sec * 1000 + tv_nsec / 1000000` stored into a `uint64_t`. -/
def msec_of (time_spec : Timespec) : Nat :=
  to_uint64 (time_spec.tv_sec * 1000 + Int.tdiv time_spec.tv_nsec 1000000)

/-- `get_current_msec`. -/
def get_current_msec (p : Platform) (msec : Ptr) : Outcome Nat :=
  if msec = Ptr.null then ⟨false, none, []⟩
  else
    match clock_gettime p Clock.CLOCK_REALTIME with
    | none => ⟨false, none, [Call.clock_gettime Clock.CLOCK_REALTIME]⟩
    | some time_spec => ⟨true, some (msec_of time_spec), [Call.clock_gettime Clock.CLOCK_REALTIME]⟩

/-- `get_running_time`. -/
def get_running_time (p : Platform) (running_time : Ptr) : Outcome Nat :=
  if running_time = Ptr.null then ⟨false, none, []⟩
  else
    match clock_gettime p Clock.CLOCK_MONOTONIC with
    | none => ⟨false, none, [Call.clock_gettime Clock.CLOCK_MONOTONIC]⟩
    | some time_spec =>
      ⟨true, some (msec_of time_spec), [Call.clock_gettime Clock.CLOCK_MONOTONIC]⟩

/-- `unix_time_to_local_time`: the record written to `local_time`.  `none`
    when `localtime` returns a null pointer, which the code dereferences. -/
def unix_time_to_local_time (p : Platform) (unix_time : Nat) : Option date_time_t :=
  match localtime p.zone (to_time_t unix_time) with
  | none => none
  | some time => some (date_time_of_tm time)

/-- `local_time_to_unix_time`: the value written to `unix_time`.  The
    `struct tm` is zero-initialised, so `tm_isdst` is 0. -/
def local_time_to_unix_time (p : Platform) (local_time : date_time_t) : Nat :=
  let time : Tm :=
    { tm_year := (local_time.tm_year : Int) - 1900
      tm_mon := (local_time.tm_mon : Int) - 1
      tm_mday := (local_time.tm_day : Int)
      tm_hour := (local_time.tm_hour : Int)
      tm_min := (local_time.tm_min : Int)
      tm_sec := (local_time.tm_sec : Int)
      tm_isdst := 0 }
  to_uint64 (mktime p.zone time)

/-- `set_hardware_clock_from_system_time`: the calls made.  A null `device`
    is `none`. -/
def set_hardware_clock_from_system_time (device : Option (List Char)) : List Call :=
  match device with
  | none => []
  | some d => [Call.system (snprintf 256 ("hwclock -w -f ".toList ++ d))]

/-- `set_system_time_from_hardware_clock`: the calls made.  A null `device`
    is `none`. -/
def set_system_time_from_hardware_clock (device : Option (List Char)) : List Call :=
  match device with
  | none => []
  | some d => [Call.system (snprintf 256 ("hwclock -s -f ".toList ++ d))]

/-! ## Definitions used to state the theorems -/

/-- Exactly `w` decimal digits of `n`, most significant first, zero-padded
    (the digits of `n % 10 ^ w`). -/
def digits : Nat → Nat → List Char
  | 0, _ => []
  | w + 1, n => digits w (n / 10) ++ [digit_char n]

/-- The text `YYYY a MM a DD b HH c MM c SS d mmmmmm`: year (absolute) in
    four digits, month (1-based), day, hour, minute and second of the
    broken-down time `tm` in two zero-padded digits each, and `nsec / 1000`
    in six zero-padded digits, with the separators `a`, `b`, `c`, `d`. -/
def time_text (a b c d : List Char) (tm : Tm) (nsec : Int) : List Char :=
  digits 4 (1900 + tm.tm_year).toNat ++ a ++ digits 2 (1 + tm.tm_mon).toNat ++ a
    ++ digits 2 tm.tm_mday.toNat ++ b ++ digits 2 tm.tm_hour.toNat ++ c
    ++ digits 2 tm.tm_min.toNat ++ c ++ digits 2 tm.tm_sec.toNat ++ d
    ++ digits 6 (nsec / 1000).toNat

/-- A platform used to evaluate the functions: zone UTC+8 (as after
    `TZ=CST-8`), realtime clock at 2018-08-06 08:30:00.616678999 UTC,
    monotonic clock 5.25 s after its origin, every call succeeding. -/
def sample_platform : Platform :=
  { env := [("TZ".toList, "CST-8".toList)]
    zone := fixed_zone 28800
    tzdb := fun _ => fixed_zone 0
    setenv_fails := false
    now := 1533544200
    realtime := some ⟨1533544200, 616678999⟩
    monotonic := some ⟨5, 250000000⟩
    settime_ret := 0 }

/-- A device path of 242 characters, one more than fits the command
    buffer of the hardware-clock functions after `hwclock -w -f `. -/
def long_device : List Char := List.replicate 242 'a'

/-- Central European Time with its daylight-saving period of 2024
    (2024-03-31 01:00 UTC to 2024-10-27 01:00 UTC). -/
def cet_zone : Zone :=
  { stdoff := 3600, dstoff := 7200, dst := [(1711846800, 1729990800)] }

/-- The sample platform in Central European Time. -/
def cet_platform : Platform := { sample_platform with zone := cet_zone }

/-- The number the table `month` gives a word: `i + 1` when the word is
    the entry of index `i` (counted from 0), and 0 when it is no entry. -/
def month_number (mmm : List Char) : Nat :=
  if mmm ∈ month then month.indexOf mmm + 1 else 0

/-- A compile-date text `Mmm D YYYY`: the word `mmm`, a blank, the day `d`
    in decimal (preceded by one more blank when `padded` and the day has a
    single digit, as the preprocessor writes it), a blank, and the year `y`
    in four digits. -/
def date_text (mmm : List Char) (padded : Bool) (d y : Nat) : List Char :=
  mmm ++ " ".toList ++ (if padded && decide (d < 10) then " ".toList else []) ++ dec d
    ++ " ".toList ++ digits 4 y

/-- A compile-time text `HH:MM:SS`. -/
def clock_text (h mi s : Nat) : List Char :=
  digits 2 h ++ ":".toList ++ digits 2 mi ++ ":".toList ++ digits 2 s

/-- The canonical text `YYYY-MM-DD HH:MM:SS`. -/
def stamp_text (y mon d h mi s : Nat) : List Char :=
  digits 4 y ++ "-".toList ++ digits 2 mon ++ "-".toList ++ digits 2 d ++ " ".toList
    ++ digits 2 h ++ ":".toList ++ digits 2 mi ++ ":".toList ++ digits 2 s

/-! ## Lemmas: the calendar -/

/-- The year of the era computed from a day of the era lies in 0..399. -/
theorem yoe_bounds (doe : Int) (h0 : 0 ≤ doe) (h1 : doe ≤ 146096) :
    0 ≤ (doe - doe / 1460 + doe / 36524 - doe / 146096) / 365 ∧
    (doe - doe / 1460 + doe / 36524 - doe / 146096) / 365 ≤ 399 := by
  omega

/-- The day of the year left after the year of the era lies in 0..365. -/
theorem doy_bounds (doe yoe : Int) (h0 : 0 ≤ doe) (h1 : doe ≤ 146096)
    (hy : yoe = (doe - doe / 1460 + doe / 36524 - doe / 146096) / 365) :
    0 ≤ doe - (365 * yoe + yoe / 4 - yoe / 100) ∧
      doe - (365 * yoe + yoe / 4 - yoe / 100) ≤ 365 := by
  have hf : doe / 36524 = 0 ∨ doe / 36524 = 1 ∨ doe / 36524 = 2 ∨ doe / 36524 = 3 ∨
      doe / 36524 = 4 := by omega
  have hd : yoe / 100 = 0 ∨ yoe / 100 = 1 ∨ yoe / 100 = 2 ∨ yoe / 100 = 3 := by omega
  rcases hf with hf | hf | hf | hf | hf <;> rcases hd with hd | hd | hd | hd <;> omega

/-- Shifted month (0 = March) and day of the month of a day of the year. -/
theorem month_day_bounds (doy : Int) (h0 : 0 ≤ doy) (h1 : doy ≤ 365) :
    0 ≤ (5 * doy + 2) / 153 ∧ (5 * doy + 2) / 153 ≤ 11 ∧
    1 ≤ doy - (153 * ((5 * doy + 2) / 153) + 2) / 5 + 1 ∧
    doy - (153 * ((5 * doy + 2) / 153) + 2) / 5 + 1 ≤ 31 := by
  omega

/-- `days_from_civil` on a date given by era, year of era and shifted month. -/
theorem days_from_civil_shifted (era yoe mp d : Int) (hy0 : 0 ≤ yoe) (hy1 : yoe ≤ 399)
    (hm0 : 0 ≤ mp) (hm1 : mp ≤ 11) :
    days_from_civil
        (if (if mp < 10 then mp + 3 else mp - 9) ≤ 2 then yoe + era * 400 + 1 else yoe + era * 400)
        (if mp < 10 then mp + 3 else mp - 9) d
      = era * 146097 + (yoe * 365 + yoe / 4 - yoe / 100 + ((153 * mp + 2) / 5 + d - 1)) - 719468 := by
  have he : (yoe + era * 400) / 400 = era := by omega
  unfold days_from_civil
  by_cases h : mp < 10
  · have h2 : ¬ (mp + 3 ≤ 2) := by omega
    have h3 : mp + 3 > 2 := by omega
    simp only [h, if_true, h2, if_false, h3, he]
    have e1 : mp + 3 - 3 = mp := by omega
    have e2 : yoe + era * 400 - era * 400 = yoe := by omega
    rw [e1, e2]
  · have h2 : mp - 9 ≤ 2 := by omega
    have h3 : ¬ (mp - 9 > 2) := by omega
    have e0 : yoe + era * 400 + 1 - 1 = yoe + era * 400 := by omega
    simp only [h, if_false, h2, if_true, h3, e0, he]
    have e1 : mp - 9 + 9 = mp := by omega
    have e2 : yoe + era * 400 - era * 400 = yoe := by omega
    rw [e1, e2]

/-- `days_from_civil` inverts `civil_from_days`. -/
theorem days_from_civil_from_days (z : Int) :
    days_from_civil (civil_from_days z).1 (civil_from_days z).2.1 (civil_from_days z).2.2 = z := by
  simp only [civil_from_days]
  generalize hera : (z + 719468) / 146097 = era
  generalize hdoe : z + 719468 - era * 146097 = doe
  have hd0 : 0 ≤ doe ∧ doe ≤ 146096 := by omega
  generalize hyoe : (doe - doe / 1460 + doe / 36524 - doe / 146096) / 365 = yoe
  have hy := yoe_bounds doe hd0.1 hd0.2
  rw [hyoe] at hy
  have hdy := doy_bounds doe yoe hd0.1 hd0.2 hyoe.symm
  generalize hdoy : doe - (365 * yoe + yoe / 4 - yoe / 100) = doy at hdy ⊢
  have hm := month_day_bounds doy hdy.1 hdy.2
  generalize hmp : (5 * doy + 2) / 153 = mp at hm ⊢
  rw [days_from_civil_shifted era yoe mp _ hy.1 hy.2 hm.1 hm.2.1]
  omega

/-- Shape of the result of `civil_from_days`: the year is an era year plus a
    carry, the month lies in 1..12 and the day in 1..31. -/
theorem civil_from_days_bounds (z : Int) :
    1 ≤ (civil_from_days z).2.1 ∧ (civil_from_days z).2.1 ≤ 12 ∧
    1 ≤ (civil_from_days z).2.2 ∧ (civil_from_days z).2.2 ≤ 31 ∧
    ((z + 719468) / 146097) * 400 ≤ (civil_from_days z).1 ∧
    (civil_from_days z).1 ≤ ((z + 719468) / 146097) * 400 + 400 := by
  simp only [civil_from_days]
  generalize hera : (z + 719468) / 146097 = era
  generalize hdoe : z + 719468 - era * 146097 = doe
  have hd0 : 0 ≤ doe ∧ doe ≤ 146096 := by omega
  generalize hyoe : (doe - doe / 1460 + doe / 36524 - doe / 146096) / 365 = yoe
  have hy := yoe_bounds doe hd0.1 hd0.2
  rw [hyoe] at hy
  have hdy := doy_bounds doe yoe hd0.1 hd0.2 hyoe.symm
  generalize hdoy : doe - (365 * yoe + yoe / 4 - yoe / 100) = doy at hdy ⊢
  have hm := month_day_bounds doy hdy.1 hdy.2
  generalize hmp : (5 * doy + 2) / 153 = mp at hm ⊢
  refine ⟨?_, ?_, hm.2.2.1, hm.2.2.2, ?_, ?_⟩ <;> split_ifs <;> omega

/-- `days_from_civil` is linear in the day of the month. -/
theorem days_from_civil_day (y m d : Int) :
    days_from_civil y m 1 + (d - 1) = days_from_civil y m d := by
  simp only [days_from_civil]
  omega

/-- The fields of a broken-down time lie in their calendar ranges. -/
theorem break_down_ranges (x i : Int) :
    0 ≤ (break_down x i).tm_sec ∧ (break_down x i).tm_sec ≤ 59 ∧
    0 ≤ (break_down x i).tm_min ∧ (break_down x i).tm_min ≤ 59 ∧
    0 ≤ (break_down x i).tm_hour ∧ (break_down x i).tm_hour ≤ 23 ∧
    1 ≤ (break_down x i).tm_mday ∧ (break_down x i).tm_mday ≤ 31 ∧
    0 ≤ (break_down x i).tm_mon ∧ (break_down x i).tm_mon ≤ 11 := by
  have hc := civil_from_days_bounds (x / 86400)
  simp only [break_down]
  omega

/-- The fields of a broken-down time denote the wall-clock time they were
    made from. -/
theorem wall_seconds_break_down (x i : Int) : wall_seconds (break_down x i) = x := by
  have hc := civil_from_days_bounds (x / 86400)
  have hr := days_from_civil_from_days (x / 86400)
  simp only [wall_seconds, break_down]
  generalize civil_from_days (x / 86400) = c at hc hr ⊢
  have h1 : (c.2.1 - 1) / 12 = 0 := by omega
  have h2 : (c.2.1 - 1) % 12 + 1 = c.2.1 := by omega
  have h3 : c.1 - 1900 + 1900 + 0 = c.1 := by omega
  rw [h1, h2, h3, days_from_civil_day, hr]
  omega

/-- The year of a broken-down time fits an `int` for every time within
    2^55 seconds of the epoch. -/
theorem break_down_year (x i : Int) (h0 : -36028797018963968 ≤ x) (h1 : x ≤ 36028797018963968) :
    -2147483648 ≤ (break_down x i).tm_year ∧ (break_down x i).tm_year ≤ 2147483647 := by
  have hc := civil_from_days_bounds (x / 86400)
  simp only [break_down]
  omega

/-! ## Lemmas: formatted output -/

/-- `digits w n` has `w` characters. -/
theorem digits_length (w n : Nat) : (digits w n).length = w := by
  induction w generalizing n with
  | zero => rfl
  | succ w ih => simp [digits, ih]

/-- The `w` digits of 0 are `w` zeros. -/
theorem digits_zero (w : Nat) : digits w 0 = List.replicate w '0' := by
  induction w with
  | zero => rfl
  | succ w ih =>
    have h : digit_char 0 = '0' := by decide
    simp [digits, ih, h, List.replicate_succ']

/-- Padding the digits of `n` with zeros up to `w` characters gives the `w`
    digits of `n`, whenever `n` has at most `w` digits. -/
theorem dec_rev_pad (f : Nat) : ∀ (n w : Nat), n < 10 ^ f → n < 10 ^ (w + 1) →
    List.replicate (w + 1 - (dec_rev f n).length) '0' ++ (dec_rev f n).reverse
      = digits (w + 1) n := by
  induction f with
  | zero =>
    intro n w hf _
    have hn : n = 0 := by simpa using hf
    subst hn
    simp [dec_rev, digits_zero]
  | succ f ih =>
    intro n w hf hw
    by_cases h : n < 10
    · have h0 : n / 10 = 0 := by omega
      simp [dec_rev, h, digits, h0, digits_zero]
    · have hw1 : 1 ≤ w := by
        rcases Nat.eq_zero_or_pos w with h0 | h0
        · subst h0; simp at hw; omega
        · exact h0
      obtain ⟨w', rfl⟩ : ∃ w', w = w' + 1 := ⟨w - 1, by omega⟩
      have hf' : n / 10 < 10 ^ f := by
        rw [Nat.div_lt_iff_lt_mul (by norm_num)]; rw [pow_succ] at hf; exact hf
      have hw' : n / 10 < 10 ^ (w' + 1) := by
        rw [Nat.div_lt_iff_lt_mul (by norm_num)]; rw [pow_succ] at hw; exact hw
      have := ih (n / 10) w' hf' hw'
      simp only [dec_rev, h, if_false, List.length_cons, List.reverse_cons]
      rw [digits, ← this]
      simp

/-- A number of at least `10 ^ w` has more than `w` digits. -/
theorem dec_rev_length (f : Nat) : ∀ (n w : Nat), n < 10 ^ f → 10 ^ w ≤ n →
    w + 1 ≤ (dec_rev f n).length := by
  induction f with
  | zero =>
    intro n w hf hw
    have : 0 < 10 ^ w := by positivity
    simp at hf; omega
  | succ f ih =>
    intro n w hf hw
    rcases Nat.eq_zero_or_pos w with h0 | h0
    · subst h0; simp [dec_rev]
    · obtain ⟨w', rfl⟩ : ∃ w', w = w' + 1 := ⟨w - 1, by omega⟩
      have h10 : ¬ n < 10 := by
        have : 10 ≤ 10 ^ (w' + 1) := by
          calc 10 = 10 ^ 1 := by norm_num
            _ ≤ 10 ^ (w' + 1) := Nat.pow_le_pow_right (by norm_num) (by omega)
        omega
      have hf' : n / 10 < 10 ^ f := by
        rw [Nat.div_lt_iff_lt_mul (by norm_num)]; rw [pow_succ] at hf; exact hf
      have hw' : 10 ^ w' ≤ n / 10 := by
        rw [Nat.le_div_iff_mul_le (by norm_num)]; rw [pow_succ] at hw; exact hw
      have := ih (n / 10) w' hf' hw'
      simp only [dec_rev, h10, if_false, List.length_cons]
      omega

/-- A number has at most as many digits as its value plus one. -/
theorem lt_ten_pow_succ (n : Nat) : n < 10 ^ (n + 1) := by
  have h1 : n < 10 ^ n := Nat.lt_pow_self (by norm_num) n
  have h2 : 10 ^ n ≤ 10 ^ (n + 1) := Nat.pow_le_pow_right (by norm_num) (by omega)
  omega

/-- `%0<w>d` of a value of at most `w` digits prints its `w` digits. -/
theorem fmt_d_zero (w : Nat) (v : Int) (h0 : 0 ≤ v) (h1 : v < 10 ^ (w + 1)) :
    fmt_d true (w + 1) v = digits (w + 1) v.toNat := by
  have hlt : ¬ v < 0 := by omega
  have hn : v.natAbs = v.toNat := by omega
  have hb : v.toNat < 10 ^ (w + 1) := by
    have : ((v.toNat : Nat) : Int) < ((10 ^ (w + 1) : Nat) : Int) := by
      rw [Int.toNat_of_nonneg h0]; exact_mod_cast h1
    exact_mod_cast this
  have := dec_rev_pad (v.toNat + 1) v.toNat w (lt_ten_pow_succ _) hb
  simp only [fmt_d, hlt, if_false, hn, dec, List.length_nil, Nat.zero_add, List.nil_append,
    List.length_reverse, if_true]
  exact this

/-- `%<w>d` of a value of exactly `w` digits prints its `w` digits. -/
theorem fmt_d_blank (w : Nat) (v : Int) (h0 : 10 ^ w ≤ v) (h1 : v < 10 ^ (w + 1)) :
    fmt_d false (w + 1) v = digits (w + 1) v.toNat := by
  have hpos : (0 : Int) < 10 ^ w := by positivity
  have hlt : ¬ v < 0 := by omega
  have hv0 : 0 ≤ v := by omega
  have hn : v.natAbs = v.toNat := by omega
  have hb : v.toNat < 10 ^ (w + 1) := by
    have : ((v.toNat : Nat) : Int) < ((10 ^ (w + 1) : Nat) : Int) := by
      rw [Int.toNat_of_nonneg hv0]; exact_mod_cast h1
    exact_mod_cast this
  have hb0 : 10 ^ w ≤ v.toNat := by
    have : ((10 ^ w : Nat) : Int) ≤ ((v.toNat : Nat) : Int) := by
      rw [Int.toNat_of_nonneg hv0]; exact_mod_cast h0
    exact_mod_cast this
  have hp := dec_rev_pad (v.toNat + 1) v.toNat w (lt_ten_pow_succ _) hb
  have hl := dec_rev_length (v.toNat + 1) v.toNat w (lt_ten_pow_succ _) hb0
  have hz : w + 1 - (dec_rev (v.toNat + 1) v.toNat).length = 0 := by omega
  rw [hz] at hp
  simp only [fmt_d, hlt, if_false, hn, dec, List.length_nil, Nat.zero_add,
    List.length_reverse, hz]
  simpa using hp
/-- A `struct tm` that `localtime` returns has its fields in range. -/
theorem localtime_ranges (z : Zone) (t : Int) (tm : Tm) (h : localtime z t = some tm) :
    0 ≤ tm.tm_sec ∧ tm.tm_sec ≤ 59 ∧ 0 ≤ tm.tm_min ∧ tm.tm_min ≤ 59 ∧
    0 ≤ tm.tm_hour ∧ tm.tm_hour ≤ 23 ∧ 1 ≤ tm.tm_mday ∧ tm.tm_mday ≤ 31 ∧
    0 ≤ tm.tm_mon ∧ tm.tm_mon ≤ 11 := by
  unfold localtime tm_result at h
  split_ifs at h <;> simp only [Option.some.injEq, reduceCtorEq] at h <;> subst h <;>
    exact break_down_ranges _ _

theorem time_text_length (a b c d : List Char) (tm : Tm) (nsec : Int) :
    (time_text a b c d tm nsec).length = 20 + 2 * a.length + b.length + 2 * c.length + d.length := by
  simp only [time_text, List.length_append, digits_length]
  omega

/-- The three `snprintf` outputs of `get_time_str`, for a broken-down time
    with fields in range and a four-digit year. -/
theorem time_fields_text (a b c d : List Char) (tm : Tm) (nsec : Int)
    (hr : 0 ≤ tm.tm_sec ∧ tm.tm_sec ≤ 59 ∧ 0 ≤ tm.tm_min ∧ tm.tm_min ≤ 59 ∧
      0 ≤ tm.tm_hour ∧ tm.tm_hour ≤ 23 ∧ 1 ≤ tm.tm_mday ∧ tm.tm_mday ≤ 31 ∧
      0 ≤ tm.tm_mon ∧ tm.tm_mon ≤ 11)
    (hy : 1000 ≤ 1900 + tm.tm_year ∧ 1900 + tm.tm_year ≤ 9999)
    (hn : 0 ≤ nsec ∧ nsec < 1000000000) :
    fmt_d false 4 (to_int (1900 + tm.tm_year)) ++ a
      ++ fmt_d true 2 (to_int (1 + tm.tm_mon)) ++ a
      ++ fmt_d true 2 tm.tm_mday ++ b ++ fmt_d true 2 tm.tm_hour ++ c
      ++ fmt_d true 2 tm.tm_min ++ c ++ fmt_d true 2 tm.tm_sec ++ d
      ++ fmt_d true 6 (Int.tdiv nsec 1000) = time_text a b c d tm nsec := by
  have e1 : to_int (1900 + tm.tm_year) = 1900 + tm.tm_year := by unfold to_int; omega
  have e2 : to_int (1 + tm.tm_mon) = 1 + tm.tm_mon := by unfold to_int; omega
  have e3 : Int.tdiv nsec 1000 = nsec / 1000 := Int.tdiv_eq_ediv hn.1 (by norm_num)
  rw [e1, e2, e3]
  rw [fmt_d_blank 3 _ (by norm_num; omega) (by norm_num; omega),
    fmt_d_zero 1 (1 + tm.tm_mon) (by omega) (by norm_num; omega),
    fmt_d_zero 1 tm.tm_mday (by omega) (by norm_num; omega),
    fmt_d_zero 1 tm.tm_hour (by omega) (by norm_num; omega),
    fmt_d_zero 1 tm.tm_min (by omega) (by norm_num; omega),
    fmt_d_zero 1 tm.tm_sec (by omega) (by norm_num; omega),
    fmt_d_zero 5 (nsec / 1000) (by omega) (by norm_num; omega)]
  rfl

/-- `snprintf` leaves an output that fits the buffer as it is. -/
theorem snprintf_fits (size : Nat) (full : List Char) (h : full.length < size) :
    snprintf size full = full := by
  unfold snprintf
  exact List.take_of_length_le (by omega)


/-! ## Lemmas: formatted input -/

/-- Code of a digit character. -/
theorem digit_char_toNat (n : Nat) : (digit_char n).toNat = 48 + n % 10 := by
  have h : ∀ k, k < 10 → (Char.ofNat (48 + k)).toNat = 48 + k := by decide
  exact h (n % 10) (Nat.mod_lt _ (by norm_num))

/-- A digit character is a digit. -/
theorem is_digit_digit_char (n : Nat) : is_digit (digit_char n) = true := by
  simp [is_digit, digit_char_toNat]
  omega

/-- A digit character is not white space. -/
theorem is_space_digit_char (n : Nat) : is_space (digit_char n) = false := by
  simp [is_space, digit_char_toNat]
  omega

/-- A digit character is not a minus sign. -/
theorem digit_char_ne_minus (n : Nat) : digit_char n ≠ '-' := by
  intro h
  have := digit_char_toNat n
  rw [h] at this
  have e : ('-' : Char).toNat = 45 := by decide
  omega

/-- A digit character is not a plus sign. -/
theorem digit_char_ne_plus (n : Nat) : digit_char n ≠ '+' := by
  intro h
  have := digit_char_toNat n
  rw [h] at this
  have e : ('+' : Char).toNat = 43 := by decide
  omega

/-- A digit character is not a colon. -/
theorem digit_char_ne_colon (n : Nat) : digit_char n ≠ ':' := by
  intro h
  have := digit_char_toNat n
  rw [h] at this
  have e : (':' : Char).toNat = 58 := by decide
  omega

/-- The two digits of a number. -/
theorem digits_two (n : Nat) : digits 2 n = [digit_char (n / 10), digit_char n] := by
  simp [digits]

/-- The four digits of a number. -/
theorem digits_four (n : Nat) :
    digits 4 n = [digit_char (n / 10 / 10 / 10), digit_char (n / 10 / 10), digit_char (n / 10),
      digit_char n] := by
  simp [digits]

/-- The decimal text of a number below 100. -/
theorem dec_small (n : Nat) (h : n < 100) :
    dec n = if n < 10 then [digit_char n] else [digit_char (n / 10), digit_char n] := by
  have h2 := dec_rev_pad (n + 1) n 1 (lt_ten_pow_succ n) (by norm_num; omega)
  split_ifs with h10
  · simp [dec, dec_rev, h10]
  · have hl := dec_rev_length (n + 1) n 1 (lt_ten_pow_succ n) (by norm_num; omega)
    have hz : 1 + 1 - (dec_rev (n + 1) n).length = 0 := by omega
    rw [hz] at h2
    simp only [List.replicate_zero, List.nil_append] at h2
    rw [dec, h2, digits_two]

/-- Skipping white space stops at a digit. -/
theorem skip_ws_digit (n : Nat) (s : List Char) :
    skip_ws (digit_char n :: s) = digit_char n :: s := by
  simp [skip_ws, is_space_digit_char]

/-- Skipping white space passes a blank. -/
theorem skip_ws_blank (s : List Char) : skip_ws (' ' :: s) = skip_ws s := by
  have h : is_space ' ' = true := by decide
  simp [skip_ws, h]

/-- `%<w>d` on input that starts with a digit reads digits only. -/
theorem scan_d_digit (w n : Nat) (s : List Char) :
    scan_d (w + 1) (digit_char n :: s)
      = some (((scan_digits (w + 1) 0 (digit_char n :: s)).1 : Int),
          (scan_digits (w + 1) 0 (digit_char n :: s)).2) := by
  simp [scan_d, skip_ws_digit, digit_char_ne_minus, digit_char_ne_plus, scan_unsigned,
    is_digit_digit_char]

/-- Two digits read with width 2. -/
theorem scan_digits_two (n : Nat) (hn : n < 100) (s : List Char) :
    scan_digits 2 0 (digit_char (n / 10) :: digit_char n :: s) = (n, s) := by
  simp [scan_digits, is_digit_digit_char, digit_char_toNat]
  omega

/-- One digit read with width 2, the next character not being a digit. -/
theorem scan_digits_one (n : Nat) (hn : n < 10) (c : Char) (s : List Char)
    (hc : is_digit c = false) :
    scan_digits 2 0 (digit_char n :: c :: s) = (n, c :: s) := by
  simp [scan_digits, is_digit_digit_char, digit_char_toNat, hc]
  omega

/-- Four digits read with width 4. -/
theorem scan_digits_four (n : Nat) (hn : n < 10000) (s : List Char) :
    scan_digits 4 0 (digit_char (n / 10 / 10 / 10) :: digit_char (n / 10 / 10)
      :: digit_char (n / 10) :: digit_char n :: s) = (n, s) := by
  simp [scan_digits, is_digit_digit_char, digit_char_toNat]
  omega

/-- The `sscanf` of `get_compile_time` on a compile-time text. -/
theorem sscanf_time_clock_text (h mi s : Nat) (hh : h < 100) (hmi : mi < 100) (hs : s < 100) :
    sscanf_time (clock_text h mi s) = ((h : Int), (mi : Int), (s : Int)) := by
  have e : clock_text h mi s = digit_char (h / 10) :: digit_char h :: ':' ::
      digit_char (mi / 10) :: digit_char mi :: ':' :: digit_char (s / 10) :: digit_char s :: [] := by
    simp [clock_text, digits_two]
  rw [e]
  simp [sscanf_time, scan_d_digit, scan_digits_two, hh, hmi, hs, scan_lit]

/-- The `sscanf` of `get_compile_time` on a compile-date text. -/
theorem sscanf_date_date_text (a b c : Char) (padded : Bool) (d y : Nat)
    (ha : is_space a = false) (hb : is_space b = false) (hc : is_space c = false)
    (hd : d < 100) (hy : y < 10000) :
    sscanf_date (date_text [a, b, c] padded d y) = ([a, b, c], (d : Int), (y : Int)) := by
  have hsp : is_space ' ' = true := by decide
  have hnd : is_digit ' ' = false := by decide
  have e4 := digits_four y
  have hdec := dec_small d hd
  have hscan : scan_s (date_text [a, b, c] padded d y)
      = some ([a, b, c], ' ' :: ((if padded && decide (d < 10) then " ".toList else [])
          ++ dec d ++ " ".toList ++ digits 4 y)) := by
    simp [scan_s, date_text, skip_ws, ha, hb, hc, hsp, List.takeWhile, List.dropWhile]
  have hskip : skip_ws (' ' :: ((if padded && decide (d < 10) then " ".toList else [])
      ++ dec d ++ " ".toList ++ digits 4 y)) = dec d ++ ' ' :: digits 4 y := by
    rw [skip_ws_blank, hdec]
    by_cases h10 : d < 10
    · cases padded <;> simp [h10, skip_ws_blank, skip_ws_digit]
    · simp [h10, skip_ws_digit]
  have hday : scan_d 2 (dec d ++ ' ' :: digits 4 y) = some ((d : Int), ' ' :: digits 4 y) := by
    rw [hdec]
    by_cases h10 : d < 10
    · simp [h10, scan_d_digit, scan_digits_one, hnd]
    · simp [h10, scan_d_digit, scan_digits_two, hd]
  have hyear : scan_d 4 (skip_ws (' ' :: digits 4 y)) = some ((y : Int), []) := by
    rw [skip_ws_blank, e4, skip_ws_digit, scan_d_digit, scan_digits_four y hy]
  simp only [sscanf_date, hscan, hskip, hday, hyear]

/-- The loop over a table of three-letter entries finds the first entry
    equal to a three-letter word. -/
theorem month_loop_eq (mmm : List Char) (hm : mmm.length = 3) :
    ∀ (table : List (List Char)) (i : Nat), (∀ m ∈ table, m.length = 3) →
      month_loop mmm i table
        = if mmm ∈ table then ((i + table.indexOf mmm + 1 : Nat) : Int) else 0 := by
  intro table
  induction table with
  | nil => intro i _; simp [month_loop]
  | cons m rest ih =>
    intro i hlen
    have hml : m.length = 3 := hlen m (List.mem_cons_self _ _)
    have hrest : ∀ x ∈ rest, x.length = 3 := fun x hx => hlen x (List.mem_cons_of_mem _ hx)
    have hcmp : strncmp_eq mmm m 3 = decide (mmm = m) := by
      unfold strncmp_eq
      rw [List.take_of_length_le (by omega), List.take_of_length_le (by omega)]
      by_cases h : mmm = m <;> simp [h]
    by_cases h : mmm = m
    · subst h
      simp [month_loop, hcmp, List.indexOf_cons]
    · have h' : ¬ (m = mmm) := fun e => h e.symm
      have hb : (m == mmm) = false := by simp [h']
      simp only [month_loop, hcmp, h, decide_False, Bool.false_eq_true, if_false,
        ih (i + 1) hrest, List.mem_cons, false_or, List.indexOf_cons, hb, cond_false]
      split_ifs
      · push_cast; omega
      · rfl

/-- On a three-letter word the loop of `get_compile_time` computes
    `month_number`. -/
theorem month_loop_month (mmm : List Char) (hm : mmm.length = 3) :
    month_loop mmm 0 month = (month_number mmm : Int) := by
  rw [month_loop_eq mmm hm month 0 (by decide)]
  unfold month_number
  split_ifs <;> simp

/-- `month_number` is at most 12. -/
theorem month_number_le (mmm : List Char) : month_number mmm ≤ 12 := by
  have key : ∀ (l : List (List Char)), mmm ∈ l → l.indexOf mmm < l.length := by
    intro l
    induction l with
    | nil => intro h; simp at h
    | cons x xs ih =>
      intro h
      rw [List.indexOf_cons]
      by_cases hx : x = mmm
      · simp [hx]
      · have hb : (x == mmm) = false := by simp [hx]
        have hmem : mmm ∈ xs := by
          rcases List.mem_cons.mp h with e | e
          · exact absurd e.symm hx
          · exact e
        have := ih hmem
        simp only [hb, cond_false, List.length_cons]
        omega
  have hl : month.length = 12 := by decide
  unfold month_number
  split_ifs with hmem
  · have := key month hmem
    omega
  · omega

/-! ## Theorems -/

/-- C2. For every successful realtime clock reading `ts` with nanoseconds in
    0..10^9-1 whose local broken-down time `tm` has a four-digit year,
    `get_time_str` succeeds for the modes 0, 1, 2 and writes exactly the 20
    characters `YYYYMMDDHHMMSSmmmmmm` (mode 0), the 26 characters
    `YYYY-MM-DD HH:MM:SS.mmmmmm` (mode 1), the 26 characters
    `YYYY-MM-DD_HH-MM-SS-mmmmmm` (mode 2): year absolute, month 1-based,
    two zero-padded digits per field, `mmmmmm` the six zero-padded digits of
    nanoseconds / 1000. -/
theorem get_time_str_format (p : Platform) (ts : Timespec) (tm : Tm)
    (hclock : p.realtime = some ts)
    (hnsec : 0 ≤ ts.tv_nsec ∧ ts.tv_nsec < 1000000000)
    (hlocal : localtime p.zone ts.tv_sec = some tm)
    (hyear : 1000 ≤ 1900 + tm.tm_year ∧ 1900 + tm.tm_year ≤ 9999) :
    ((get_time_str p Ptr.valid 0).ret = true ∧
      (get_time_str p Ptr.valid 0).out = some (time_text [] [] [] [] tm ts.tv_nsec) ∧
      (time_text [] [] [] [] tm ts.tv_nsec).length = 20) ∧
    ((get_time_str p Ptr.valid 1).ret = true ∧
      (get_time_str p Ptr.valid 1).out
        = some (time_text "-".toList " ".toList ":".toList ".".toList tm ts.tv_nsec) ∧
      (time_text "-".toList " ".toList ":".toList ".".toList tm ts.tv_nsec).length = 26) ∧
    ((get_time_str p Ptr.valid 2).ret = true ∧
      (get_time_str p Ptr.valid 2).out
        = some (time_text "-".toList "_".toList "-".toList "-".toList tm ts.tv_nsec) ∧
      (time_text "-".toList "_".toList "-".toList "-".toList tm ts.tv_nsec).length = 26) := by
  have hr := localtime_ranges _ _ _ hlocal
  have h0 := time_fields_text [] [] [] [] tm ts.tv_nsec hr hyear hnsec
  have h1 := time_fields_text "-".toList " ".toList ":".toList ".".toList tm ts.tv_nsec
    hr hyear hnsec
  have h2 := time_fields_text "-".toList "_".toList "-".toList "-".toList tm ts.tv_nsec
    hr hyear hnsec
  have l0 : (time_text [] [] [] [] tm ts.tv_nsec).length = 20 := by
    rw [time_text_length]; rfl
  have l1 : (time_text "-".toList " ".toList ":".toList ".".toList tm ts.tv_nsec).length
      = 26 := by
    rw [time_text_length]; rfl
  have l2 : (time_text "-".toList "_".toList "-".toList "-".toList tm ts.tv_nsec).length
      = 26 := by
    rw [time_text_length]; rfl
  simp only [List.append_nil] at h0
  refine ⟨⟨?_, ?_, l0⟩, ⟨?_, ?_, l1⟩, ⟨?_, ?_, l2⟩⟩
  · simp [get_time_str, clock_gettime, hclock, hlocal]
  · simp only [get_time_str, clock_gettime, hclock, hlocal, reduceCtorEq, if_false, if_true, h0]
    rw [snprintf_fits _ _ (by omega)]
  · simp [get_time_str, clock_gettime, hclock, hlocal]
  · have e : ¬ ((0 : Nat) = 1) := by decide
    simp only [get_time_str, clock_gettime, hclock, hlocal, reduceCtorEq, if_false, if_true,
      e, h1]
    rw [snprintf_fits _ _ (by omega)]
  · simp [get_time_str, clock_gettime, hclock, hlocal]
  · have e : ¬ ((0 : Nat) = 2) := by decide
    have e1 : ¬ ((1 : Nat) = 2) := by decide
    simp only [get_time_str, clock_gettime, hclock, hlocal, reduceCtorEq, if_false, if_true,
      e, e1, h2]
    rw [snprintf_fits _ _ (by omega)]

/-- Witness of `get_time_str_format`: the three texts for the reading
    2018-08-06 16:30:00.616678999 local time. -/
theorem get_time_str_format_witness :
    (get_time_str sample_platform Ptr.valid 0).out = some "20180806163000616678".toList ∧
    (get_time_str sample_platform Ptr.valid 1).out = some "2018-08-06 16:30:00.616678".toList ∧
    (get_time_str sample_platform Ptr.valid 2).out = some "2018-08-06_16-30-00-616678".toList :=
  have h := get_time_str_format sample_platform ⟨1533544200, 616678999⟩ ⟨0, 30, 16, 6, 7, 118, 0⟩
    rfl (by decide) (by decide) (by decide)
  ⟨h.1.2.1.trans (by decide), h.2.1.2.1.trans (by decide), h.2.2.2.1.trans (by decide)⟩

/-- C3. With a non-null buffer `get_time_str` returns success if and only
    if the realtime clock read and the local breakdown succeed and the mode
    is 0, 1 or 2; for every mode from 3 on (so from 3 to 255) it returns
    failure. -/
theorem get_time_str_success_iff (p : Platform) (g : Nat) :
    ((get_time_str p Ptr.valid g).ret = true ↔
      ((∃ ts, p.realtime = some ts ∧ (localtime p.zone ts.tv_sec).isSome = true) ∧ g ≤ 2)) ∧
    (get_time_str p Ptr.valid (g + 3)).ret = false := by
  constructor
  · unfold get_time_str clock_gettime
    cases hc : p.realtime with
    | none => simp
    | some ts =>
      cases hl : localtime p.zone ts.tv_sec with
      | none => simp [hl]
      | some tm =>
        simp only [reduceCtorEq, if_false, Option.some.injEq, exists_eq_left', hl,
          Option.isSome_some, true_and]
        split_ifs <;> simp <;> omega
  · unfold get_time_str clock_gettime
    cases hc : p.realtime with
    | none => simp
    | some ts =>
      cases hl : localtime p.zone ts.tv_sec with
      | none => simp [hl]
      | some tm =>
        have e0 : ¬ (0 = g + 3) := by omega
        have e1 : ¬ (1 = g + 3) := by omega
        have e2 : ¬ (2 = g + 3) := by omega
        simp [hl, e0, e1, e2]

/-- C8. With a null output pointer `get_time_str` (for every mode),
    `get_local_time`, `get_current_msec` and `get_running_time` return
    failure, store nothing and make no call: no clock is read. -/
theorem null_output_fails (p : Platform) (g : Nat) :
    get_time_str p Ptr.null g = ⟨false, none, []⟩ ∧
    get_local_time p Ptr.null = ⟨false, none, []⟩ ∧
    get_current_msec p Ptr.null = ⟨false, none, []⟩ ∧
    get_running_time p Ptr.null = ⟨false, none, []⟩ := by
  simp [get_time_str, get_local_time, get_current_msec, get_running_time]

/-- C7. With a non-null output, `get_current_msec` succeeds exactly when
    the realtime clock read succeeds and then stores
    seconds * 1000 + nanoseconds / 1000000 of that reading; `get_running_time`
    does the same from the monotonic clock, and its outcome is the same on
    any two platforms with the same monotonic reading, whatever their
    realtime clocks are.  The readings are those a clock gives: seconds and
    nanoseconds not negative, the milliseconds within 64 bits. -/
theorem msec_from_clocks (p q : Platform) (rt mt : Timespec)
    (hrt : 0 ≤ rt.tv_sec ∧ 0 ≤ rt.tv_nsec ∧
      rt.tv_sec * 1000 + rt.tv_nsec / 1000000 < 18446744073709551616)
    (hmt : 0 ≤ mt.tv_sec ∧ 0 ≤ mt.tv_nsec ∧
      mt.tv_sec * 1000 + mt.tv_nsec / 1000000 < 18446744073709551616)
    (hq : q.monotonic = p.monotonic) :
    ((get_current_msec p Ptr.valid).ret = true ↔ p.realtime.isSome = true) ∧
    (p.realtime = some rt →
      (get_current_msec p Ptr.valid).out
        = some (rt.tv_sec * 1000 + rt.tv_nsec / 1000000).toNat) ∧
    ((get_running_time p Ptr.valid).ret = true ↔ p.monotonic.isSome = true) ∧
    (p.monotonic = some mt →
      (get_running_time p Ptr.valid).out
        = some (mt.tv_sec * 1000 + mt.tv_nsec / 1000000).toNat) ∧
    get_running_time q Ptr.valid = get_running_time p Ptr.valid := by
  have key : ∀ ts : Timespec, 0 ≤ ts.tv_sec ∧ 0 ≤ ts.tv_nsec ∧
      ts.tv_sec * 1000 + ts.tv_nsec / 1000000 < 18446744073709551616 →
      msec_of ts = (ts.tv_sec * 1000 + ts.tv_nsec / 1000000).toNat := by
    intro ts h
    unfold msec_of to_uint64
    rw [Int.tdiv_eq_ediv h.2.1 (by norm_num)]
    congr 1
    omega
  refine ⟨?_, ?_, ?_, ?_, ?_⟩
  · unfold get_current_msec clock_gettime
    cases p.realtime <;> simp
  · intro h
    simp [get_current_msec, clock_gettime, h, key rt hrt]
  · unfold get_running_time clock_gettime
    cases p.monotonic <;> simp
  · intro h
    simp [get_running_time, clock_gettime, h, key mt hmt]
  · simp [get_running_time, clock_gettime, hq]

/-- Witness of `msec_from_clocks`: the sample readings give 1533544200616 ms
    and 5250 ms, and a platform whose realtime clock fails and whose other
    answers differ has the same running time. -/
theorem msec_from_clocks_witness :
    (get_current_msec sample_platform Ptr.valid).out = some 1533544200616 ∧
    (get_running_time sample_platform Ptr.valid).out = some 5250 ∧
    get_running_time { sample_platform with realtime := none, now := 0 } Ptr.valid
      = get_running_time sample_platform Ptr.valid :=
  have h := msec_from_clocks sample_platform { sample_platform with realtime := none, now := 0 }
    ⟨1533544200, 616678999⟩ ⟨5, 250000000⟩ (by decide) (by decide) rfl
  ⟨(h.2.1 rfl).trans (by decide), (h.2.2.2.1 rfl).trans (by decide), h.2.2.2.2⟩

/-- A variable just set has the value it was set to. -/
theorem env_get_set (e : Env) (name value : List Char) :
    (e.set name value).get name = some value := by
  simp [Env.get, Env.set, List.find?]

/-- Counterexample to C4 as stated: with the empty string (and an
    environment write that succeeds) `set_local_time_zone` returns success
    and sets `TZ` to the empty string. -/
theorem set_local_time_zone_empty_succeeds :
    (set_local_time_zone sample_platform (some [])).1 = true ∧
    (set_local_time_zone sample_platform (some [])).2.1.env.get "TZ".toList = some [] ∧
    (set_local_time_zone sample_platform (some [])).2.2
      = [Call.setenv "TZ".toList [], Call.tzset] := by
  decide

/-- C4, amended. `set_local_time_zone` returns failure, changes nothing and
    makes no call when its argument is null; for every non-null string, the
    empty one included, it calls `setenv("TZ", ..)` and returns failure with
    the environment and the cached zone unchanged when that write fails,
    and otherwise returns success with `TZ` set to the string and the cached
    zone refreshed from the new environment by `tzset`. -/
theorem set_local_time_zone_result (p : Platform) (tz : List Char) :
    (set_local_time_zone p none).1 = false ∧
    (set_local_time_zone p none).2.1.env = p.env ∧
    (set_local_time_zone p none).2.1.zone = p.zone ∧
    (set_local_time_zone p none).2.2 = [] ∧
    (set_local_time_zone p (some tz)).1 = !p.setenv_fails ∧
    (set_local_time_zone p (some tz)).2.1.env.get "TZ".toList
      = (if p.setenv_fails then p.env.get "TZ".toList else some tz) ∧
    (set_local_time_zone p (some tz)).2.1.env
      = (if p.setenv_fails then p.env else p.env.set "TZ".toList tz) ∧
    (set_local_time_zone p (some tz)).2.1.zone
      = (if p.setenv_fails then p.zone else tzset p (p.env.set "TZ".toList tz)) ∧
    (set_local_time_zone p (some tz)).2.2
      = (if p.setenv_fails then [Call.setenv "TZ".toList tz]
         else [Call.setenv "TZ".toList tz, Call.tzset]) := by
  have hname : ("TZ".toList.isEmpty || "TZ".toList.contains '=') = false := by decide
  cases hf : p.setenv_fails <;>
    simp [set_local_time_zone, setenv, hname, hf, env_get_set]

set_option maxRecDepth 100000 in
/-- Counterexample to C5 as stated: for the empty device path each function
    executes a command, and for a path of 242 characters the command
    executed is not the text `hwclock -w -f ` (or `-s`) followed by the
    path. -/
theorem hwclock_empty_and_long_device :
    set_hardware_clock_from_system_time (some []) = [Call.system "hwclock -w -f ".toList] ∧
    set_system_time_from_hardware_clock (some []) = [Call.system "hwclock -s -f ".toList] ∧
    set_hardware_clock_from_system_time (some long_device)
      ≠ [Call.system ("hwclock -w -f ".toList ++ long_device)] ∧
    set_system_time_from_hardware_clock (some long_device)
      ≠ [Call.system ("hwclock -s -f ".toList ++ long_device)] := by
  decide

/-- C5, amended. The two hardware-clock functions execute no command when
    the device path is null; for every non-null path `e`, the empty one
    included, they execute exactly one command, the first 255 characters of
    `hwclock -w -f e` and of `hwclock -s -f e` respectively, which for a
    path `d` of at most 241 characters is the whole text. -/
theorem hwclock_commands (d e : List Char) (hd : d.length ≤ 241) :
    set_hardware_clock_from_system_time none = [] ∧
    set_system_time_from_hardware_clock none = [] ∧
    set_hardware_clock_from_system_time (some e)
      = [Call.system (("hwclock -w -f ".toList ++ e).take 255)] ∧
    set_system_time_from_hardware_clock (some e)
      = [Call.system (("hwclock -s -f ".toList ++ e).take 255)] ∧
    set_hardware_clock_from_system_time (some d)
      = [Call.system ("hwclock -w -f ".toList ++ d)] ∧
    set_system_time_from_hardware_clock (some d)
      = [Call.system ("hwclock -s -f ".toList ++ d)] := by
  have hw : ("hwclock -w -f ".toList ++ d).length < 256 := by
    rw [List.length_append]
    have : "hwclock -w -f ".toList.length = 14 := by decide
    omega
  have hs : ("hwclock -s -f ".toList ++ d).length < 256 := by
    rw [List.length_append]
    have : "hwclock -s -f ".toList.length = 14 := by decide
    omega
  refine ⟨rfl, rfl, rfl, rfl, ?_, ?_⟩
  · simp only [set_hardware_clock_from_system_time]
    rw [snprintf_fits _ _ hw]
  · simp only [set_system_time_from_hardware_clock]
    rw [snprintf_fits _ _ hs]

/-- Witness of `hwclock_commands`: the commands for `/dev/rtc0`. -/
theorem hwclock_commands_witness :
    set_hardware_clock_from_system_time (some "/dev/rtc0".toList)
      = [Call.system "hwclock -w -f /dev/rtc0".toList] ∧
    set_system_time_from_hardware_clock (some "/dev/rtc0".toList)
      = [Call.system "hwclock -s -f /dev/rtc0".toList] :=
  have h := hwclock_commands "/dev/rtc0".toList [] (by decide)
  ⟨h.2.2.2.2.1.trans (by decide), h.2.2.2.2.2.trans (by decide)⟩

/-- C6 on the code. `set_local_time` hands `mktime` of the record (month - 1,
    year - 1900, `tm_isdst` -1) to the primitive that sets the clock; built
    for `__GLIBC_MINOR__` other than 31 it calls `stime` and returns success
    exactly when `stime` returns 0, but built for `__GLIBC_MINOR__` 31 it
    calls `clock_settime` and returns failure whatever that call returns:
    so for the record 2024-01-01 00:00:00 on the sample platform, where the
    primitive reports success. -/
theorem set_local_time_result (glibc_minor : Nat) (p : Platform) (r : date_time_t) :
    set_local_time glibc_minor p r
      = (if glibc_minor = 31 then
          (false, [Call.clock_settime (mktime p.zone
            ⟨r.tm_sec, r.tm_min, r.tm_hour, r.tm_day, (r.tm_mon : Int) - 1,
             (r.tm_year : Int) - 1900, -1⟩)])
         else
          (decide (p.settime_ret = 0), [Call.stime (mktime p.zone
            ⟨r.tm_sec, r.tm_min, r.tm_hour, r.tm_day, (r.tm_mon : Int) - 1,
             (r.tm_year : Int) - 1900, -1⟩)])) ∧
    sample_platform.settime_ret = 0 ∧
    set_local_time 31 sample_platform ⟨2024, 1, 1, 0, 0, 0⟩
      = (false, [Call.clock_settime 1704038400]) ∧
    set_local_time 30 sample_platform ⟨2024, 1, 1, 0, 0, 0⟩
      = (true, [Call.stime 1704038400]) := by
  refine ⟨?_, by decide, by decide, by decide⟩
  unfold set_local_time
  by_cases h : glibc_minor = 31
  · simp [h]
  · by_cases h0 : p.settime_ret = 0
    · simp [h, h0]
    · have h1 : ¬ (0 = p.settime_ret) := fun e => h0 e.symm
      simp [h, h0, h1]

/-- A fixed zone is never in daylight-saving time. -/
theorem in_dst_fixed_zone (s t : Int) : in_dst (fixed_zone s) t = false := by
  simp [in_dst, fixed_zone]

/-- `localtime` in a fixed zone breaks down the time shifted by the offset. -/
theorem localtime_fixed_zone (s t : Int) :
    localtime (fixed_zone s) t = tm_result (break_down (t + s) 0) := by
  unfold localtime utc_offset
  rw [in_dst_fixed_zone]
  rfl

/-- `mktime` in a fixed zone inverts a breakdown made with `tm_isdst` 0. -/
theorem mktime_break_down (s x : Int) : mktime (fixed_zone s) (break_down x 0) = x - s := by
  have h : (break_down x 0).tm_isdst = 0 := rfl
  simp only [mktime, h, if_true, wall_seconds_break_down, fixed_zone]

/-- What the code does at an instant of daylight-saving time: 1719828000
    (2024-07-01 12:00:00 local time in Central European Time) comes back as
    1719831600, one hour late, because `local_time_to_unix_time` leaves
    `tm_isdst` at 0 and `mktime` then reads the fields as standard time. -/
theorem summer_instant_one_hour_late :
    (unix_time_to_local_time cet_platform 1719828000).map (local_time_to_unix_time cet_platform)
      = some 1719831600 := by
  decide

/-- `tm_result` succeeds on a breakdown of a time within 2^55 seconds of
    the epoch. -/
theorem tm_result_break_down (x i : Int) (h0 : -36028797018963968 ≤ x)
    (h1 : x ≤ 36028797018963968) : tm_result (break_down x i) = some (break_down x i) := by
  have h := break_down_year x i h0 h1
  unfold tm_result
  rw [if_pos h]

/-- Truncating division by 3600 in terms of the flooring one. -/
theorem tdiv_3600 (s : Int) :
    Int.tdiv s 3600 = if 0 ≤ s then s / 3600 else -((-s) / 3600) := by
  split_ifs with h
  · exact Int.tdiv_eq_ediv h (by norm_num)
  · have h2 : Int.tdiv (-s) 3600 = (-s) / 3600 := Int.tdiv_eq_ediv (by omega) (by norm_num)
    rw [← h2, Int.neg_tdiv, neg_neg]

/-- `get_local_time_zone` when both breakdowns succeed. -/
theorem get_local_time_zone_eq (r : Platform) (tm_local tm_utc : Tm)
    (hl : localtime r.zone r.now = some tm_local) (hu : gmtime r.now = some tm_utc) :
    get_local_time_zone r
      = some (to_int (Int.tdiv (mktime r.zone tm_local - mktime r.zone tm_utc) 3600)) := by
  unfold get_local_time_zone
  dsimp only
  rw [hl]
  dsimp only
  rw [hu]

/-- `get_local_time_zone` in a fixed zone. -/
theorem get_local_time_zone_of_fixed (p : Platform) (s : Int) (hz : p.zone = fixed_zone s)
    (hs : -1099511627776 ≤ s ∧ s ≤ 1099511627776)
    (hnow : -18014398509481984 ≤ p.now ∧ p.now ≤ 18014398509481984) :
    get_local_time_zone p = some (Int.tdiv s 3600) := by
  have hl : localtime p.zone p.now = some (break_down (p.now + s) 0) := by
    rw [hz, localtime_fixed_zone]
    exact tm_result_break_down _ _ (by omega) (by omega)
  have hg : gmtime p.now = some (break_down p.now 0) :=
    tm_result_break_down _ _ (by omega) (by omega)
  have hd : p.now + s - s - (p.now - s) = s := by omega
  have ht : to_int (Int.tdiv s 3600) = Int.tdiv s 3600 := by
    rw [tdiv_3600]
    unfold to_int
    split_ifs <;> omega
  rw [get_local_time_zone_eq p _ _ hl hg, hz, mktime_break_down, mktime_break_down, hd, ht]

/-- After a successful `set_local_time_zone` with a value of the POSIX form
    `std offset`, the cached zone is the zone that value denotes, and the
    clock reading `now` is what it was. -/
theorem zone_after_set (q : Platform) (v : List Char) (z : Zone)
    (hq : q.setenv_fails = false) (hv : posix_tz v = some z) :
    (set_local_time_zone q (some v)).2.1.zone = z ∧
    (set_local_time_zone q (some v)).2.1.now = q.now := by
  have hname : ("TZ".toList.isEmpty || "TZ".toList.contains '=') = false := by decide
  simp [set_local_time_zone, setenv, hname, hq, tzset, env_get_set, hv]

/-- C9. In a process time zone whose local time is UTC plus a fixed offset
    of `s` seconds, `get_local_time_zone` returns `s / 3600` truncated toward
    zero; so it returns 0 after `set_local_time_zone("UTC0")`, 8 after
    `set_local_time_zone("CST-8")`, 5 in a +5:30 zone (`IST-5:30`) and -3 in
    a -3:30 zone (`NST3:30`).  In any zone the value is the difference of
    `mktime` of the local breakdown and `mktime` of the UTC breakdown of the
    same instant, divided by 3600 (and converted to `int`). -/
theorem get_local_time_zone_fixed (p q r : Platform) (s : Int) (tm_local tm_utc : Tm)
    (hz : p.zone = fixed_zone s)
    (hs : -1099511627776 ≤ s ∧ s ≤ 1099511627776)
    (hnow : -18014398509481984 ≤ p.now ∧ p.now ≤ 18014398509481984)
    (hq : q.setenv_fails = false)
    (hqnow : -18014398509481984 ≤ q.now ∧ q.now ≤ 18014398509481984)
    (hl : localtime r.zone r.now = some tm_local) (hu : gmtime r.now = some tm_utc) :
    get_local_time_zone p = some (Int.tdiv s 3600) ∧
    get_local_time_zone (set_local_time_zone q (some "UTC0".toList)).2.1 = some 0 ∧
    get_local_time_zone (set_local_time_zone q (some "CST-8".toList)).2.1 = some 8 ∧
    get_local_time_zone (set_local_time_zone q (some "IST-5:30".toList)).2.1 = some 5 ∧
    get_local_time_zone (set_local_time_zone q (some "NST3:30".toList)).2.1 = some (-3) ∧
    get_local_time_zone r
      = some (to_int (Int.tdiv (mktime r.zone tm_local - mktime r.zone tm_utc) 3600)) := by
  have after : ∀ (v : List Char) (o : Int), posix_tz v = some (fixed_zone o) →
      -1099511627776 ≤ o ∧ o ≤ 1099511627776 →
      get_local_time_zone (set_local_time_zone q (some v)).2.1 = some (Int.tdiv o 3600) := by
    intro v o hv ho
    have h := zone_after_set q v (fixed_zone o) hq hv
    exact get_local_time_zone_of_fixed _ o h.1 ho (by rw [h.2]; exact hqnow)
  refine ⟨get_local_time_zone_of_fixed p s hz hs hnow, ?_, ?_, ?_, ?_, ?_⟩
  · exact after "UTC0".toList 0 (by decide) (by decide)
  · exact after "CST-8".toList 28800 (by decide) (by decide)
  · exact after "IST-5:30".toList 19800 (by decide) (by decide)
  · exact after "NST3:30".toList (-12600) (by decide) (by decide)
  · exact get_local_time_zone_eq r tm_local tm_utc hl hu

/-- Witness of `get_local_time_zone_fixed`: the sample platform (zone
    UTC+8) gives 8, and after `set_local_time_zone("UTC0")` and
    `set_local_time_zone("NST3:30")` the results are 0 and -3. -/
theorem get_local_time_zone_fixed_witness :
    get_local_time_zone sample_platform = some 8 ∧
    get_local_time_zone (set_local_time_zone sample_platform (some "UTC0".toList)).2.1
      = some 0 ∧
    get_local_time_zone (set_local_time_zone sample_platform (some "NST3:30".toList)).2.1
      = some (-3) :=
  have h := get_local_time_zone_fixed sample_platform sample_platform sample_platform 28800
    ⟨0, 30, 16, 6, 7, 118, 0⟩ ⟨0, 30, 8, 6, 7, 118, 0⟩
    rfl (by decide) (by decide) rfl (by decide) (by decide) (by decide)
  ⟨h.1.trans (by decide), h.2.1, h.2.2.2.2.1⟩

/-- C10. For every compile-date text `Mmm D YYYY` (the word `Mmm` of three
    characters that are not white space, the day below 100 in decimal, with
    or without the blank the preprocessor puts before a single digit, the
    year in four digits) and every compile-time text `HH:MM:SS`,
    `get_compile_time` writes the 19 characters `YYYY-MM-DD HH:MM:SS`: the
    month field is the two digits of `i + 1` when `Mmm` is the entry of index
    `i` of the table Jan..Dec and `00` when it is no entry, and year, day,
    hour, minute and second are the numbers read, zero-padded to 4, 2, 2, 2
    and 2 digits.  The result is a function of the two texts alone. -/
theorem get_compile_time_text (a b c : Char) (padded : Bool) (d y h mi s : Nat)
    (ha : is_space a = false) (hb : is_space b = false) (hc : is_space c = false)
    (hd : d < 100) (hy : y < 10000) (hh : h < 100) (hmi : mi < 100) (hs : s < 100) :
    get_compile_time (date_text [a, b, c] padded d y) (clock_text h mi s)
      = some (stamp_text y (month_number [a, b, c]) d h mi s) ∧
    (stamp_text y (month_number [a, b, c]) d h mi s).length = 19 ∧
    (∀ i, i < 12 → month.get? i = some [a, b, c] → month_number [a, b, c] = i + 1) ∧
    ([a, b, c] ∉ month → month_number [a, b, c] = 0) := by
  have hlen : (stamp_text y (month_number [a, b, c]) d h mi s).length = 19 := by
    simp [stamp_text, digits_length]
  refine ⟨?_, hlen, ?_, ?_⟩
  · have hdl : (date_text [a, b, c] padded d y).length < 20 := by
      have := dec_small d hd
      simp only [date_text, List.length_append, digits_length, this]
      split_ifs <;> simp
    have hcl : (clock_text h mi s).length < 20 := by
      simp [clock_text, digits_length]
    have hmn := month_number_le [a, b, c]
    unfold get_compile_time
    dsimp only
    rw [snprintf_fits _ _ hdl, snprintf_fits _ _ hcl,
      sscanf_date_date_text a b c padded d y ha hb hc hd hy,
      sscanf_time_clock_text h mi s hh hmi hs]
    have h3 : ¬ (3 < [a, b, c].length) := by simp
    simp only [h3, if_false, month_loop_month [a, b, c] rfl]
    rw [fmt_d_zero 3 (y : Int) (by omega) (by norm_num; omega),
      fmt_d_zero 1 (month_number [a, b, c] : Int) (by omega) (by norm_num; omega),
      fmt_d_zero 1 (d : Int) (by omega) (by norm_num; omega),
      fmt_d_zero 1 (h : Int) (by omega) (by norm_num; omega),
      fmt_d_zero 1 (mi : Int) (by omega) (by norm_num; omega),
      fmt_d_zero 1 (s : Int) (by omega) (by norm_num; omega)]
    simp only [Int.toNat_ofNat]
    rw [snprintf_fits _ _ (by rw [← stamp_text]; omega)]
    rfl
  · intro i hi hget
    interval_cases i <;> simp [month] at hget <;> obtain ⟨rfl, rfl, rfl⟩ := hget <;> decide
  · intro hnot
    simp [month_number, hnot]

/-- Witness of `get_compile_time_text`: the texts `Feb  7 2023` and
    `09:05:31` give `2023-02-07 09:05:31`. -/
theorem get_compile_time_text_witness :
    date_text "Feb".toList true 7 2023 = "Feb  7 2023".toList ∧
    clock_text 9 5 31 = "09:05:31".toList ∧
    get_compile_time (date_text "Feb".toList true 7 2023) (clock_text 9 5 31)
      = some "2023-02-07 09:05:31".toList :=
  have h := get_compile_time_text 'F' 'e' 'b' true 7 2023 9 5 31
    (by decide) (by decide) (by decide) (by decide) (by decide) (by decide) (by decide)
    (by decide)
  ⟨by decide, by decide, h.1.trans (by decide)⟩

end TimeHandle
